import Mathlib

/-!
Verification development for the ConfirmIT forensic verification engine.

The definitions below shallowly embed the scoring, normalization, sorting and
progress-event logic of the repository.  JavaScript numbers are modelled as
rationals (`ℚ`), machine integers as `ℤ`/`ℕ`.  `Math.round` is modelled as
`jsRound` (round half toward positive infinity, JavaScript semantics).

Frontend TypeScript code under `src/` is translated directly.  The Python
forensic engine (`ai-service/app/agents/forensic_agent.py`,
`ai-service/app/agents/orchestrator.py`, `ai-service/app/core/progress_emitter.py`)
is not part of the source tree; those parts are modelled from the spec and the
project documentation that quotes them, as indicated in each doc comment.
-/

namespace ConfirmIt

/-- JavaScript `Math.round`: round half toward positive infinity,
i.e. `Math.round x = ⌊x + 1/2⌋`. -/
def jsRound (q : ℚ) : ℤ := ⌊q + 1 / 2⌋

theorem jsRound_nonneg {x : ℚ} (hx : 0 ≤ x) : 0 ≤ jsRound x := by
  unfold jsRound
  exact Int.le_floor.mpr (by push_cast; linarith)

theorem jsRound_le_of {x : ℚ} {B : ℤ} (hx : x ≤ (B : ℚ)) : jsRound x ≤ B := by
  unfold jsRound
  have h : ⌊x + 1 / 2⌋ < B + 1 := Int.floor_lt.mpr (by push_cast; linarith)
  omega

theorem jsRound_mono {x y : ℚ} (h : x ≤ y) : jsRound x ≤ jsRound y :=
  Int.floor_le_floor (by linarith)

/-- Translated from `calculateTrustScore` in `src/unnamed/part_000`
(`AgentSDK`):
`reputationWeight = (reputationScore / 1000) * 70`,
`experienceWeight = Math.min(totalRequests, 100) * 0.3`,
result `Math.round(reputationWeight + experienceWeight)`.
The two intermediate `const` bindings are inlined. -/
def calculateTrustScore (reputationScore totalRequests : ℚ) : ℤ :=
  jsRound (reputationScore / 1000 * 70 + min totalRequests 100 * (3 / 10))

/-- Claim C10: for every `reputationScore` in `[0, 1000]` and every
`totalRequests ≥ 0`, `AgentSDK.calculateTrustScore` returns an integer in
`[0, 100]`, computed as
`round((reputationScore/1000)*70 + min(totalRequests, 100)*0.3)`, and the
result is monotonically non-decreasing in both arguments. -/
theorem calculateTrustScore_props (rep t rep2 t2 : ℚ)
    (h0 : 0 ≤ rep) (h1 : rep ≤ 1000) (h2 : 0 ≤ t)
    (hr : rep ≤ rep2) (ht : t ≤ t2) :
    calculateTrustScore rep t = jsRound (rep / 1000 * 70 + min t 100 * (3 / 10)) ∧
    0 ≤ calculateTrustScore rep t ∧
    calculateTrustScore rep t ≤ 100 ∧
    calculateTrustScore rep t ≤ calculateTrustScore rep2 t ∧
    calculateTrustScore rep t ≤ calculateTrustScore rep t2 := by
  have hmin0 : (0 : ℚ) ≤ min t 100 := le_min h2 (by norm_num)
  have hmin1 : min t 100 ≤ (100 : ℚ) := min_le_right _ _
  have hrep0 : (0 : ℚ) ≤ rep / 1000 * 70 := by linarith
  have hrep1 : rep / 1000 * 70 ≤ 70 := by linarith
  have hrmono : rep / 1000 * 70 ≤ rep2 / 1000 * 70 := by linarith
  have htmono : min t 100 ≤ min t2 100 := min_le_min ht le_rfl
  refine ⟨rfl, ?_, ?_, ?_, ?_⟩
  · exact jsRound_nonneg (by linarith)
  · exact jsRound_le_of (by push_cast; linarith)
  · exact jsRound_mono (by linarith)
  · exact jsRound_mono (by linarith)

/-- Witness for C10 at `rep = 500`, `t = 50`, `rep2 = 600`, `t2 = 60`. -/
theorem calculateTrustScore_props_witness :
    calculateTrustScore 500 50 = jsRound (500 / 1000 * 70 + min 50 100 * (3 / 10)) ∧
    0 ≤ calculateTrustScore 500 50 ∧
    calculateTrustScore 500 50 ≤ 100 ∧
    calculateTrustScore 500 50 ≤ calculateTrustScore 600 50 ∧
    calculateTrustScore 500 50 ≤ calculateTrustScore 500 60 :=
  calculateTrustScore_props 500 50 600 60 (by norm_num) (by norm_num) (by norm_num)
    (by norm_num) (by norm_num)

/-- Translated from `ELAHeatmapVisual.tsx`: `const max = Math.max(...flatData)`.
For a non-empty list this folds `max` over the tail starting from the head;
the `[]` case (JavaScript would give `-Infinity`) is unreachable because the
component returns early when `heatmap.length === 0`. -/
def maxOf : List ℚ → ℚ
  | [] => 0
  | x :: xs => xs.foldl max x

/-- Translated from `ELAHeatmapVisual.tsx`: `const min = Math.min(...flatData)`. -/
def minOf : List ℚ → ℚ
  | [] => 0
  | x :: xs => xs.foldl min x

/-- Translated from `ELAHeatmapVisual.tsx`: `const range = max - min || 1`.
In JavaScript `max - min` is falsy exactly when it is `0` (the inputs are
finite numbers), in which case `1` is used instead. -/
def rangeOf (l : List ℚ) : ℚ :=
  if maxOf l - minOf l = 0 then 1 else maxOf l - minOf l

/-- Translated from `ELAHeatmapVisual.tsx`:
`const normalized = (flatData[i] - min) / range` applied to every cell. -/
def normalizeHeatmap (l : List ℚ) : List ℚ :=
  l.map (fun v => (v - minOf l) / rangeOf l)

theorem foldl_max_const : ∀ (xs : List ℚ) (c : ℚ), (∀ y ∈ xs, y = c) → xs.foldl max c = c
  | [], _, _ => rfl
  | x :: xs, c, h => by
      have hx : x = c := h x (List.mem_cons_self x xs)
      have hrec := foldl_max_const xs c (fun y hy => h y (List.mem_cons_of_mem x hy))
      simp only [List.foldl_cons, hx, max_self]
      exact hrec

theorem foldl_min_const : ∀ (xs : List ℚ) (c : ℚ), (∀ y ∈ xs, y = c) → xs.foldl min c = c
  | [], _, _ => rfl
  | x :: xs, c, h => by
      have hx : x = c := h x (List.mem_cons_self x xs)
      have hrec := foldl_min_const xs c (fun y hy => h y (List.mem_cons_of_mem x hy))
      simp only [List.foldl_cons, hx, min_self]
      exact hrec

/-- Claim C9: for every non-empty heatmap array rendered by `ELAHeatmapVisual`,
the per-cell normalization `(value - min) / range` uses `range = (max - min) || 1`,
so the divisor is never zero, and every normalized value is a well-defined
rational (the JavaScript value is finite) even when all heatmap values are
equal — in the uniform case every normalized value is `0`. -/
theorem elaNormalize_props (l : List ℚ) (h : l ≠ []) :
    rangeOf l ≠ 0 ∧
    ((∀ x ∈ l, ∀ y ∈ l, x = y) → ∀ v ∈ normalizeHeatmap l, v = 0) := by
  constructor
  · unfold rangeOf
    split
    · norm_num
    · assumption
  · intro huni v hv
    obtain ⟨w, hw, rfl⟩ := List.mem_map.mp hv
    cases l with
    | nil => exact absurd rfl h
    | cons a as =>
      have hall : ∀ y ∈ a :: as, y = a :=
        fun y hy => huni y hy a (List.mem_cons_self a as)
      have hmin : minOf (a :: as) = a := by
        unfold minOf
        exact foldl_min_const as a (fun y hy => hall y (List.mem_cons_of_mem a hy))
      have hw2 : w = a := hall w hw
      rw [hw2, hmin, sub_self, zero_div]

/-- Witness for C9 at the uniform two-cell heatmap `[2, 2]`. -/
theorem elaNormalize_props_witness :
    rangeOf [2, 2] ≠ 0 ∧
    ((∀ x ∈ ([2, 2] : List ℚ), ∀ y ∈ ([2, 2] : List ℚ), x = y) →
      ∀ v ∈ normalizeHeatmap [2, 2], v = 0) :=
  elaNormalize_props [2, 2] (by simp)

/-- Discrete verdict bands of the manipulation score. -/
inductive VerdictBand where
  | authentic
  | unclear
  | suspicious
  | fraudulent
deriving DecidableEq

/-- Modelled from the spec: the verdict synthesis lives in
`ai-service/app/agents/forensic_agent.py`, which is not in the source tree.
The thresholds follow the Verdict Thresholds table documented in
`src/unnamed/part_006` (`≥70` fraudulent, `≥40` suspicious, `≥20` unclear,
`<20` authentic), applied to the final integer manipulation score. -/
def verdictBand (score : ℤ) : VerdictBand :=
  if 70 ≤ score then VerdictBand.fraudulent
  else if 40 ≤ score then VerdictBand.suspicious
  else if 20 ≤ score then VerdictBand.unclear
  else VerdictBand.authentic

/-- Claim C2: the verdict band is a fixed function of the final manipulation
score: for every score `s`, the band is `authentic` when `s < 20`, `unclear`
when `20 ≤ s ≤ 39`, `suspicious` when `40 ≤ s ≤ 69`, and `fraudulent` when
`s ≥ 70`; the thresholds 20/40/70 are fixed constants applied to the final
score. -/
theorem verdictBand_characterization (s : ℤ) :
    (verdictBand s = VerdictBand.authentic ↔ s < 20) ∧
    (verdictBand s = VerdictBand.unclear ↔ 20 ≤ s ∧ s ≤ 39) ∧
    (verdictBand s = VerdictBand.suspicious ↔ 40 ≤ s ∧ s ≤ 69) ∧
    (verdictBand s = VerdictBand.fraudulent ↔ 70 ≤ s) := by
  unfold verdictBand
  split_ifs with h1 h2 h3 <;>
    refine ⟨⟨fun hh => ?_, fun hh => ?_⟩, ⟨fun hh => ?_, fun hh => ?_⟩,
      ⟨fun hh => ?_, fun hh => ?_⟩, ⟨fun hh => ?_, fun hh => ?_⟩⟩ <;>
    first
      | rfl
      | omega
      | exact absurd hh (by decide)

/-- Clamp a rational to `[0, 1]`; used to normalize each raw detector signal
to its own point budget. -/
def clamp01 (q : ℚ) : ℚ := max 0 (min 1 q)

theorem clamp01_nonneg (q : ℚ) : 0 ≤ clamp01 q := le_max_left 0 _

theorem clamp01_le_one (q : ℚ) : clamp01 q ≤ 1 :=
  max_le (by norm_num) (min_le_left 1 q)

/-- Modelled from the spec: the per-detector signals produced by
`ai-service/app/agents/forensic_agent.py` (not in the source tree), each a
normalized manipulation likelihood in `[0, 1]` before weighting.  The five
detectors and their point budgets (40/40/30/20/10) follow the Weighted
Forensic Scoring table documented in `src/unnamed/part_006`. -/
structure DetectorSignals where
  clone : ℚ
  ela : ℚ
  noise : ℚ
  compression : ℚ
  metadata : ℚ

/-- Clone-detection contribution: up to 40 points. -/
def cloneContribution (s : DetectorSignals) : ℚ := 40 * clamp01 s.clone

/-- ELA contribution: up to 40 points. -/
def elaContribution (s : DetectorSignals) : ℚ := 40 * clamp01 s.ela

/-- Noise-inconsistency contribution: up to 30 points. -/
def noiseContribution (s : DetectorSignals) : ℚ := 30 * clamp01 s.noise

/-- Compression-anomaly contribution: up to 20 points. -/
def compressionContribution (s : DetectorSignals) : ℚ := 20 * clamp01 s.compression

/-- Metadata-risk contribution: up to 10 points. -/
def metadataContribution (s : DetectorSignals) : ℚ := 10 * clamp01 s.metadata

/-- Modelled from the spec: the manipulation score is the weighted sum of the
normalized per-detector contributions, capped at 100. -/
def manipulationScoreQ (s : DetectorSignals) : ℚ :=
  min 100 (cloneContribution s + elaContribution s + noiseContribution s +
    compressionContribution s + metadataContribution s)

theorem manipulationScoreQ_nonneg (s : DetectorSignals) : 0 ≤ manipulationScoreQ s := by
  unfold manipulationScoreQ
  have h1 := clamp01_nonneg s.clone
  have h2 := clamp01_nonneg s.ela
  have h3 := clamp01_nonneg s.noise
  have h4 := clamp01_nonneg s.compression
  have h5 := clamp01_nonneg s.metadata
  refine le_min (by norm_num) ?_
  unfold cloneContribution elaContribution noiseContribution compressionContribution
    metadataContribution
  linarith

theorem manipulationScoreQ_le_100 (s : DetectorSignals) : manipulationScoreQ s ≤ 100 :=
  min_le_left _ _

/-- Claim C3: the manipulation score equals a weighted sum of normalized
per-detector signals in which clone detection contributes at most 40 points,
ELA at most 40, noise inconsistency at most 30, and compression anomalies at
most 20 (the documented fifth signal, metadata risk, contributes at most 10),
each normalized to its own point budget, and the sum is capped at 100 for
every combination of detector outputs. -/
theorem manipulationScore_weighted_caps (s : DetectorSignals) :
    (0 ≤ cloneContribution s ∧ cloneContribution s ≤ 40) ∧
    (0 ≤ elaContribution s ∧ elaContribution s ≤ 40) ∧
    (0 ≤ noiseContribution s ∧ noiseContribution s ≤ 30) ∧
    (0 ≤ compressionContribution s ∧ compressionContribution s ≤ 20) ∧
    (0 ≤ metadataContribution s ∧ metadataContribution s ≤ 10) ∧
    manipulationScoreQ s = min 100 (cloneContribution s + elaContribution s +
      noiseContribution s + compressionContribution s + metadataContribution s) ∧
    0 ≤ manipulationScoreQ s ∧ manipulationScoreQ s ≤ 100 := by
  have hc0 := clamp01_nonneg s.clone
  have hc1 := clamp01_le_one s.clone
  have he0 := clamp01_nonneg s.ela
  have he1 := clamp01_le_one s.ela
  have hn0 := clamp01_nonneg s.noise
  have hn1 := clamp01_le_one s.noise
  have hk0 := clamp01_nonneg s.compression
  have hk1 := clamp01_le_one s.compression
  have hm0 := clamp01_nonneg s.metadata
  have hm1 := clamp01_le_one s.metadata
  unfold cloneContribution elaContribution noiseContribution compressionContribution
    metadataContribution
  refine ⟨⟨by linarith, by linarith⟩, ⟨by linarith, by linarith⟩,
    ⟨by linarith, by linarith⟩, ⟨by linarith, by linarith⟩,
    ⟨by linarith, by linarith⟩, rfl, manipulationScoreQ_nonneg s,
    manipulationScoreQ_le_100 s⟩

/-- Integer manipulation score as reported in the result payload. -/
def manipulationScoreInt (s : DetectorSignals) : ℤ := jsRound (manipulationScoreQ s)

/-- Modelled from the spec: the detector configuration (analysis resolution
bound, ELA re-encoding quality, block size) of the forensic engine, whose
implementation is not in the source tree. -/
structure DetectorConfig where
  maxDimension : ℕ
  elaQuality : ℕ
  blockSize : ℕ

/-- Modelled from the spec: the ambient state that differs between two runs of
the engine (random seed, wall-clock time).  Scoring must not read it. -/
structure RunEnv where
  seed : ℕ
  wallClockMs : ℕ

/-- Modelled from the spec: the engine computes its detector signals as a pure
function of the image bytes and the detector configuration (the concrete
detector arithmetic lives in `ai-service/app/agents/forensic_agent.py`, not in
the source tree, so it is kept as an arbitrary pure function `extract`), then
combines them with the weighted capped scorer. -/
def engineScoreWith (extract : List ℕ → DetectorConfig → DetectorSignals)
    (bytes : List ℕ) (cfg : DetectorConfig) : ℤ :=
  manipulationScoreInt (extract bytes cfg)

/-- Modelled from the spec: one engine run.  The run environment `env` is
available but the score does not depend on it — there is no nondeterministic
randomness in scoring. -/
def engineRunWith (extract : List ℕ → DetectorConfig → DetectorSignals)
    (env : RunEnv) (bytes : List ℕ) (cfg : DetectorConfig) : ℤ :=
  engineScoreWith extract bytes cfg

/-- Claim C1: for every valid input image, the returned manipulation score is
an integer in `[0, 100]`, and scoring is deterministic: two runs of the engine
(in arbitrary, possibly different, run environments) on the same image bytes
with the same detector configuration produce the same score. -/
theorem engineScore_deterministic_bounded
    (extract : List ℕ → DetectorConfig → DetectorSignals)
    (envA envB : RunEnv) (bytes : List ℕ) (cfg : DetectorConfig) :
    engineRunWith extract envA bytes cfg = engineRunWith extract envB bytes cfg ∧
    0 ≤ engineRunWith extract envA bytes cfg ∧
    engineRunWith extract envA bytes cfg ≤ 100 := by
  refine ⟨rfl, ?_, ?_⟩
  · exact jsRound_nonneg (manipulationScoreQ_nonneg _)
  · exact jsRound_le_of (by exact_mod_cast manipulationScoreQ_le_100 _)

/-- Epsilon used by the engine to guard denominators, as documented in the
NumPy division-by-zero fixes of `src/unnamed/part_006` (`1e-6`). -/
def epsQ : ℚ := 1 / 1000000

/-- Largest error value of a 2D error map, folded from 0 (error magnitudes are
non-negative, so the result is as well). -/
def maxOfGrid (g : List (List ℚ)) : ℚ :=
  g.foldl (fun acc row => row.foldl max acc) 0

theorem le_foldl_max : ∀ (xs : List ℚ) (a : ℚ), a ≤ xs.foldl max a
  | [], a => le_refl a
  | x :: xs, a => le_trans (le_max_left a x) (le_foldl_max xs (max a x))

theorem le_foldl_rows : ∀ (g : List (List ℚ)) (a : ℚ),
    a ≤ g.foldl (fun acc row => row.foldl max acc) a
  | [], a => le_refl a
  | row :: rows, a => le_trans (le_foldl_max row a) (le_foldl_rows rows _)

theorem maxOfGrid_nonneg (g : List (List ℚ)) : 0 ≤ maxOfGrid g :=
  le_foldl_rows g 0

/-- Modelled from the spec: one heatmap cell of the engine (not in the source
tree) — the cell error divided by the epsilon-guarded maximum error, clamped
to the normalized range `[0, 1]`. -/
def heatmapCell (e mx : ℚ) : ℚ := clamp01 (e / (mx + epsQ))

/-- Modelled from the spec: the heatmap grid derived from a 2D error map, each
cell normalized against the image-wide maximum error with an epsilon-guarded
division. -/
def mkHeatmap (g : List (List ℚ)) : List (List ℚ) :=
  g.map (fun row => row.map (fun e => heatmapCell e (maxOfGrid g)))

/-- Claim C4: for every input error map, including degenerate ones (uniform,
1×1, all-zero), the epsilon-guarded divisor is never zero and every value of
the produced heatmap grid is a well-defined rational in `[0, 1]` (the
JavaScript/NumPy value is finite: no NaN or Infinity). -/
theorem heatmap_values_finite_normalized (g : List (List ℚ)) :
    maxOfGrid g + epsQ ≠ 0 ∧
    ∀ row ∈ mkHeatmap g, ∀ v ∈ row, 0 ≤ v ∧ v ≤ 1 := by
  have h0 : 0 ≤ maxOfGrid g := maxOfGrid_nonneg g
  have heps : (0 : ℚ) < epsQ := by norm_num [epsQ]
  constructor
  · have hpos : 0 < maxOfGrid g + epsQ := by linarith
    exact ne_of_gt hpos
  · intro row hrow v hv
    obtain ⟨r0, _, rfl⟩ := List.mem_map.mp hrow
    obtain ⟨e, _, rfl⟩ := List.mem_map.mp hv
    exact ⟨clamp01_nonneg _, clamp01_le_one _⟩

/-- Dynamic values of a progress-event detail map, as Python passes them to
the progress emitter: primitive values (`str`, `int`, `float`, `bool`) or
arbitrarily nested dictionaries and lists. -/
inductive JsonVal where
  | s : String → JsonVal
  | i : ℤ → JsonVal
  | f : ℚ → JsonVal
  | b : Bool → JsonVal
  | obj : List (String × JsonVal) → JsonVal
  | arr : List JsonVal → JsonVal

/-- Python `isinstance(value, (str, int, float, bool))`. -/
def isPrimitive : JsonVal → Bool
  | JsonVal.s _ => true
  | JsonVal.i _ => true
  | JsonVal.f _ => true
  | JsonVal.b _ => true
  | JsonVal.obj _ => false
  | JsonVal.arr _ => false

mutual

/-- Python `str(value)` rendering of a dynamic value (dictionaries render with
braces, `True`/`False` for booleans).  Only its totality matters for the
flatness contract. -/
def pyStr : JsonVal → String
  | JsonVal.s v => v
  | JsonVal.i v => toString v
  | JsonVal.f v => toString v
  | JsonVal.b true => "True"
  | JsonVal.b false => "False"
  | JsonVal.obj fields => "\x7b" ++ pyStrFields fields ++ "\x7d"
  | JsonVal.arr elems => "[" ++ pyStrElems elems ++ "]"

/-- Renders the fields of a Python dictionary. -/
def pyStrFields : List (String × JsonVal) → String
  | [] => ""
  | (k, v) :: rest => k ++ ": " ++ pyStr v ++ (if rest.isEmpty then "" else ", ") ++
      pyStrFields rest

/-- Renders the elements of a Python list. -/
def pyStrElems : List JsonVal → String
  | [] => ""
  | v :: rest => pyStr v ++ (if rest.isEmpty then "" else ", ") ++ pyStrElems rest

end

/-- Modelled from the spec: `ai-service/app/core/progress_emitter.py` is not in
the source tree; this follows the emitter code quoted in
`src/REAL_TIME_PROGRESS_FIX.md`:
`str(value) if not isinstance(value, (str, int, float, bool)) else value`. -/
def sanitizeDetailValue (v : JsonVal) : JsonVal :=
  if isPrimitive v then v else JsonVal.s (pyStr v)

/-- Modelled from the spec: the flat Firestore update record built by
`ai-service/app/core/progress_emitter.py` (not in the source tree), following
the emitter code quoted in `src/REAL_TIME_PROGRESS_FIX.md`: the fixed
`progress_agent` / `progress_stage` / `progress_message` /
`progress_percentage` / `progress_timestamp` / `last_updated` keys plus one
`progress_detail_` key per sanitized detail value. -/
def emitProgressUpdate (agent stage message : String) (progress : ℤ)
    (timestamp : String) (details : List (String × JsonVal)) :
    List (String × JsonVal) :=
  [("progress_agent", JsonVal.s agent),
   ("progress_stage", JsonVal.s stage),
   ("progress_message", JsonVal.s message),
   ("progress_percentage", JsonVal.i progress),
   ("progress_timestamp", JsonVal.s timestamp),
   ("last_updated", JsonVal.s timestamp)] ++
  details.map (fun p => ("progress_detail_" ++ p.1, sanitizeDetailValue p.2))

/-- Claim C5: every emitted progress event is a flat record: no value of the
event, including every value of the `detail_*` map, is a nested object; every
detail value is coerced to a primitive type (string/number/bool) before
emission. -/
theorem progress_event_flat (agent stage message : String) (progress : ℤ)
    (timestamp : String) (details : List (String × JsonVal)) :
    ∀ p ∈ emitProgressUpdate agent stage message progress timestamp details,
      isPrimitive p.2 = true := by
  intro p hp
  unfold emitProgressUpdate at hp
  rw [List.mem_append] at hp
  rcases hp with hp | hp
  · simp only [List.mem_cons, List.not_mem_nil, or_false] at hp
    rcases hp with rfl | rfl | rfl | rfl | rfl | rfl <;> rfl
  · obtain ⟨q, _, rfl⟩ := List.mem_map.mp hp
    show isPrimitive (sanitizeDetailValue q.2) = true
    unfold sanitizeDetailValue
    by_cases hq : isPrimitive q.2 = true
    · rw [if_pos hq]
      exact hq
    · rw [if_neg hq]
      rfl

/-- Witness for C5: an emitted record that carries a nested-dictionary detail
still maps the sampled key to a primitive value. -/
theorem progress_event_flat_witness :
    isPrimitive (JsonVal.s "forensic") = true :=
  progress_event_flat "forensic" "ela_analysis" "Running ELA" 42 "2025-01-01T00:00:00"
    [("context", JsonVal.obj [("amount", JsonVal.i 1500)])]
    ("progress_agent", JsonVal.s "forensic")
    (by unfold emitProgressUpdate
        exact List.mem_append_left _ (List.mem_cons_self _ _))

/-- Pipeline stages of one analysis run, from the orchestrator state machine
of the spec (`CREATED → LOADING → ANALYZING → AGGREGATING → SCORING →
COMPLETE`, or `FAILED` from any state). -/
inductive Stage where
  | loading
  | analyzing
  | aggregating
  | scoring
  | complete
  | failed
deriving DecidableEq

/-- Position of a stage in the pipeline order; the two terminal stages come
after every working stage. -/
def stageIdx : Stage → ℕ
  | Stage.loading => 1
  | Stage.analyzing => 2
  | Stage.aggregating => 3
  | Stage.scoring => 4
  | Stage.complete => 5
  | Stage.failed => 6

/-- Terminal stages end a run. -/
def isTerminalStage : Stage → Bool
  | Stage.complete => true
  | Stage.failed => true
  | _ => false

/-- One progress event of a run: stage, progress percentage, message. -/
structure ProgressEvent where
  stage : Stage
  progress : ℤ
  message : String

/-- Modelled from the spec: the event sequence of a fully successful run —
`ai-service/app/agents/orchestrator.py` is not in the source tree.  Each
transition of the orchestrator state machine emits exactly one event before
the next stage begins. -/
def successTrace : List ProgressEvent :=
  [⟨Stage.loading, 10, "Loading and normalizing image"⟩,
   ⟨Stage.analyzing, 40, "Running forensic analyzers"⟩,
   ⟨Stage.aggregating, 70, "Aggregating suspicious regions"⟩,
   ⟨Stage.scoring, 90, "Synthesizing forensic verdict"⟩,
   ⟨Stage.complete, 100, "Forensic analysis complete"⟩]

/-- Modelled from the spec: the event sequence of one analysis run.  `none`
is a run that completes; `some k` is a run hit by a fatal error after the
first `k` working-stage events, which then emits the single terminal `FAILED`
event. -/
def runTrace : Option (Fin 5) → List ProgressEvent
  | none => successTrace
  | some k => successTrace.take k ++ [⟨Stage.failed, 100, "Analysis failed"⟩]

/-- Claim C6: within a single analysis run, the sequence of progress events is
strictly ordered by stage, their progress percentages are monotonically
non-decreasing, and the sequence terminates in exactly one terminal event
(`COMPLETE` or `FAILED`), never zero and never more than one. -/
theorem progress_trace_props : ∀ o : Option (Fin 5),
    List.Pairwise (fun a b => stageIdx a.stage < stageIdx b.stage) (runTrace o) ∧
    List.Pairwise (fun a b => a.progress ≤ b.progress) (runTrace o) ∧
    ((runTrace o).filter (fun e => isTerminalStage e.stage)).length = 1 ∧
    ((runTrace o).getLast?).map (fun e => isTerminalStage e.stage) = some true := by
  decide

/-- One detector finding as recorded by the pipeline. -/
structure DetectorFinding where
  detector : String
  confidence : ℚ
  note : String
deriving DecidableEq

/-- Terminal status of a run. -/
inductive RunStatus where
  | complete
  | failed
deriving DecidableEq

/-- Modelled from the spec: the zero-confidence finding recorded for an
analyzer whose execution raised an error, with an explanatory note. -/
def failureFinding (name msg : String) : DetectorFinding :=
  ⟨name, 0, "Analyzer failed, confidence reduced: " ++ msg⟩

/-- Modelled from the spec: how the orchestrator settles one analyzer task —
a successful analyzer keeps its finding, a failed one is caught and recorded
as a zero-confidence finding. -/
def settleAnalyzer (name : String) : Except String DetectorFinding → DetectorFinding
  | Except.ok fnd => fnd
  | Except.error msg => failureFinding name msg

/-- Modelled from the spec: the graceful-degradation pipeline of
`ai-service/app/agents/forensic_agent.py` (not in the source tree, documented
in `src/unnamed/part_006`): every analyzer outcome is settled into a finding
and the run always reaches `COMPLETE`. -/
def runAnalyzers (analyzers : List (String × Except String DetectorFinding)) :
    RunStatus × List DetectorFinding :=
  (RunStatus.complete, analyzers.map (fun p => settleAnalyzer p.1 p.2))

/-- Claim C7: if any single analyzer throws or fails during a run, the failure
is caught and recorded as a zero-confidence `DetectorFinding` with an
explanatory note, and the run still terminates with `COMPLETE` status rather
than `FAILED`. -/
theorem forensic_pipeline_graceful
    (analyzers : List (String × Except String DetectorFinding))
    (name msg : String)
    (hmem : (name, Except.error msg) ∈ analyzers) :
    (runAnalyzers analyzers).1 = RunStatus.complete ∧
    failureFinding name msg ∈ (runAnalyzers analyzers).2 ∧
    (failureFinding name msg).confidence = 0 := by
  exact ⟨rfl, List.mem_map.mpr ⟨(name, Except.error msg), hmem, rfl⟩, rfl⟩

/-- Witness for C7: a run whose only analyzer fails still completes and
records the zero-confidence finding. -/
theorem forensic_pipeline_graceful_witness :
    (runAnalyzers [("ela_analysis", Except.error "numeric overflow")]).1 =
      RunStatus.complete ∧
    failureFinding "ela_analysis" "numeric overflow" ∈
      (runAnalyzers [("ela_analysis", Except.error "numeric overflow")]).2 ∧
    (failureFinding "ela_analysis" "numeric overflow").confidence = 0 :=
  forensic_pipeline_graceful [("ela_analysis", Except.error "numeric overflow")]
    "ela_analysis" "numeric overflow" (List.mem_cons_self _ _)

/-- Translated from the `SuspiciousRegion` shape of
`src/unnamed/part_004` (`ELAHeatmapViewer`). -/
structure SuspiciousRegion where
  x : ℚ
  y : ℚ
  width : ℚ
  height : ℚ
  severity : ℚ
  mean_error : ℚ
  max_error : ℚ
deriving DecidableEq

/-- Translated from `src/unnamed/part_004`: the comparator
`(a, b) => b.severity - a.severity` orders a region before another when its
severity is at least as large; JavaScript `Array.prototype.sort` is stable,
so the sorted output is the unique stable severity-descending ordering, which
`List.insertionSort` with this relation computes. -/
def severityDescend (a b : SuspiciousRegion) : Prop := b.severity ≤ a.severity

instance : DecidableRel severityDescend :=
  fun a b => inferInstanceAs (Decidable (b.severity ≤ a.severity))

instance : IsTotal SuspiciousRegion severityDescend :=
  ⟨fun a b => le_total b.severity a.severity⟩

instance : IsTrans SuspiciousRegion severityDescend :=
  ⟨fun _ _ _ hab hbc => le_trans hbc hab⟩

/-- Translated from `src/unnamed/part_004`:
`suspiciousRegions.sort((a, b) => b.severity - a.severity)`. -/
def sortRegions (l : List SuspiciousRegion) : List SuspiciousRegion :=
  List.insertionSort severityDescend l

/-- Translated from `src/unnamed/part_004`: the list presented to the caller,
`...sort(...).slice(0, 10)`. -/
def presentRegions (l : List SuspiciousRegion) : List SuspiciousRegion :=
  (sortRegions l).take 10

/-- Ordering asserted by the claim: severity strictly descending, with equal
severities ordered by larger area (`width * height`) first. -/
def claimTieOrder (a b : SuspiciousRegion) : Prop :=
  b.severity < a.severity ∨
    (a.severity = b.severity ∧ b.width * b.height ≤ a.width * a.height)

instance : DecidableRel claimTieOrder := fun a b =>
  inferInstanceAs (Decidable (b.severity < a.severity ∨
    (a.severity = b.severity ∧ b.width * b.height ≤ a.width * a.height)))

/-- Small-area region used in the C8 counterexample. -/
def rSmall : SuspiciousRegion := ⟨0, 0, 1, 1, 50, 10, 20⟩

/-- Large-area region with the same severity, placed second in the input. -/
def rLarge : SuspiciousRegion := ⟨5, 5, 10, 10, 50, 10, 20⟩

/-- Counterexample to claim C8: two regions share severity 50 but the
smaller-area region stays first in the presented list, so equal-severity
regions are not ordered with the larger-area region first. -/
theorem regionSort_tiebreak_counterexample :
    presentRegions [rSmall, rLarge] = [rSmall, rLarge] ∧
    rSmall.severity = rLarge.severity ∧
    rSmall.width * rSmall.height < rLarge.width * rLarge.height ∧
    ¬ List.Pairwise claimTieOrder (presentRegions [rSmall, rLarge]) := by
  have h1 : presentRegions [rSmall, rLarge] = [rSmall, rLarge] := by
    norm_num [presentRegions, sortRegions, List.insertionSort, List.orderedInsert,
      List.take, severityDescend, rSmall, rLarge]
  refine ⟨h1, rfl, by norm_num [rSmall, rLarge], ?_⟩
  rw [h1]
  intro hp
  have hR : claimTieOrder rSmall rLarge :=
    (List.pairwise_cons.mp hp).1 rLarge (List.mem_cons_self _ _)
  rcases hR with hlt | ⟨heq, harea⟩
  · exact absurd hlt (by norm_num [rSmall, rLarge])
  · exact absurd harea (by norm_num [rSmall, rLarge])

/-- Claim C8 as amended: the presented list of suspicious regions is a
permutation of the input sorted by severity in descending order (only the
first 10 entries are shown); the sort key is severity alone, with no
larger-area-first tie-break. -/
theorem regionSort_sorted_desc (l : List SuspiciousRegion) :
    List.Perm (sortRegions l) l ∧
    List.Sorted severityDescend (sortRegions l) ∧
    List.Sorted severityDescend (presentRegions l) := by
  refine ⟨List.perm_insertionSort _ l, List.sorted_insertionSort _ l, ?_⟩
  exact List.Pairwise.sublist (List.take_sublist 10 _)
    (List.sorted_insertionSort _ l)

end ConfirmIt
